import Mathlib

/-!
# langfuse-go, `internal/pkg/api/client.go`

A shallow embedding of the singleton ingestion client.

* Go strings are byte sequences: `GoString := List UInt8`; `str` turns a literal into its bytes.
* Go `error` values are `Option GoError` (`none` is `nil`); a call returning `(T, error)` is
  `Except GoError T`.
* The process environment is an explicit argument (`os.Environ`), the package variables
  `once` and `instance` are an explicit `Package` state with a heap of allocated clients,
  and the network is an explicit log of the requests handed to `httpClient.Do`.
* The standard-library calls whose results depend on data outside this file
  (`json.Marshal`, `json.Unmarshal`, the part of `url.Parse` and of `(*URL).String` past the
  scheme, the HTTP round trip) are the fields of `World`; every theorem quantifies over all
  worlds, and the closed ones use the worlds of `Scenario`.
* Receivers and the `res` pointer are taken non-nil (a nil one makes the Go code panic).
-/

/-- A Go string: an immutable sequence of bytes. -/
abbrev GoString := List UInt8

/-- The bytes of a string literal (Go source is UTF-8). -/
def str (s : String) : GoString := s.toUTF8.data.toList

/-- A non-nil Go `error` value, identified by its message. -/
structure GoError where
  msg : String
deriving DecidableEq, Repr

/-! ## `encoding/base64` -/

namespace base64

/-- The constant `encodeStd` of `encoding/base64`: the standard alphabet. -/
def encodeStd : GoString :=
  str "ABCDEFGHIJKLMNOPQRSTUVWXYZabcdefghijklmnopqrstuvwxyz0123456789+/"

/-- The constant `StdPadding`, the character `=`. -/
def StdPadding : UInt8 := 61

/-- The lookup `enc.encode[i]` in the 64-entry table of `StdEncoding`. -/
def encode (i : Nat) : UInt8 := encodeStd.getD i 0

/-- The method `(*Encoding).Encode` for `StdEncoding`: the main loop consumes three source
bytes per round and emits four characters; the remaining one or two bytes are emitted as two
or three characters followed by padding. `val` is a Go `uint` and stays below `2^24`. -/
def Encode : List UInt8 → List UInt8
  | b0 :: b1 :: b2 :: rest =>
    let val := b0.toNat <<< 16 ||| b1.toNat <<< 8 ||| b2.toNat
    encode (val >>> 18 &&& 0x3F) :: encode (val >>> 12 &&& 0x3F) ::
      encode (val >>> 6 &&& 0x3F) :: encode (val &&& 0x3F) :: Encode rest
  | [b0, b1] =>
    let val := b0.toNat <<< 16 ||| b1.toNat <<< 8
    [encode (val >>> 18 &&& 0x3F), encode (val >>> 12 &&& 0x3F),
      encode (val >>> 6 &&& 0x3F), StdPadding]
  | [b0] =>
    let val := b0.toNat <<< 16
    [encode (val >>> 18 &&& 0x3F), encode (val >>> 12 &&& 0x3F), StdPadding, StdPadding]
  | [] => []

/-- The call `base64.StdEncoding.EncodeToString(src)`. -/
def EncodeToString (src : List UInt8) : GoString := Encode src

end base64

/-! ## The base64 encoding as RFC 4648 words it (specification side) -/

namespace rfc4648

/-- The eight bits of an octet, most significant first. -/
def bitsOfOctet (b : UInt8) : List Bool :=
  [7, 6, 5, 4, 3, 2, 1, 0].map (fun i => b.toNat.testBit i)

/-- The number a bit string denotes, most significant bit first. -/
def valueOfBits (bs : List Bool) : Nat := bs.foldl (fun acc b => 2 * acc + b.toNat) 0

/-- The input bit stream cut into 6-bit groups from left to right; a final group that is
short is completed with zero bits on the right. -/
def sextets : List Bool → List (List Bool)
  | a :: b :: c :: d :: e :: f :: rest => [a, b, c, d, e, f] :: sextets rest
  | [] => []
  | short => [short ++ List.replicate (6 - short.length) false]

/-- Table 1 of RFC 4648, "The Base 64 Alphabet": the character of each value 0..63. -/
def alphabet : List Char :=
  "ABCDEFGHIJKLMNOPQRSTUVWXYZabcdefghijklmnopqrstuvwxyz0123456789+/".toList

/-- The byte of an ASCII character. -/
def charByte (c : Char) : UInt8 := c.toNat.toUInt8

/-- The encoded characters before padding: one alphabet character per 6-bit group. -/
def digits (src : List UInt8) : List UInt8 :=
  (sextets (src.flatMap bitsOfOctet)).map (fun g => charByte (alphabet.getD (valueOfBits g) 'A'))

/-- The standard padded base64 encoding: the digits, then `=` characters up to the next
multiple of four characters. -/
def base64 (src : List UInt8) : GoString :=
  let ds := digits src
  ds ++ List.replicate ((4 - ds.length % 4) % 4) (charByte '=')

end rfc4648

/-! ## `os`, `time` -/

namespace os

/-- The process environment: the value a variable is set to, `none` when it is unset. -/
abbrev Environ := GoString → Option GoString

/-- The call `os.Getenv(key)`: the value of the variable, empty when it is not present. -/
def Getenv (env : Environ) (key : GoString) : GoString := (env key).getD []

end os

namespace time

/-- The constant `time.Second`, a `time.Duration` counted in nanoseconds. -/
def Second : Nat := 1000000000

end time

/-! ## `net/http`, `net/url`, `net/textproto` -/

namespace textproto

/-- The RFC 7230 token characters (`validHeaderFieldByte`, `httpguts.IsTokenRune`). -/
def isTokenByte (c : UInt8) : Bool :=
  (48 ≤ c && c ≤ 57) || (65 ≤ c && c ≤ 90) || (97 ≤ c && c ≤ 122) ||
    (str "!#$%&*+-.^_|~").contains c || c == 39 || c == 96

/-- The rewriting loop of `canonicalMIMEHeaderKey`: upper case at the start and after a
hyphen, lower case elsewhere. -/
def canonicalLoop : Bool → List UInt8 → List UInt8
  | _, [] => []
  | upper, c :: cs =>
    let c1 := if upper && 97 ≤ c && c ≤ 122 then c - 32
      else if !upper && 65 ≤ c && c ≤ 90 then c + 32 else c
    c1 :: canonicalLoop (c == 45) cs

/-- The function `textproto.CanonicalMIMEHeaderKey`: a key holding a byte that is not a token
character is returned unchanged, any other key is put in canonical case. -/
def CanonicalMIMEHeaderKey (s : GoString) : GoString :=
  if s.all isTokenByte then canonicalLoop true s else s

end textproto

namespace strings

/-- The function `strings.ToLower` on a string of ASCII bytes, which is what a URL scheme is:
the letters `A`..`Z` are mapped to `a`..`z`. -/
def ToLower (s : GoString) : GoString :=
  s.map (fun c => if 65 ≤ c && c ≤ 90 then c + 32 else c)

/-- The function `strings.LastIndex(s, sep)` for a one-byte separator: the position of its
last occurrence, -1 when there is none. -/
def LastIndex (s : GoString) (sep : UInt8) : Int :=
  if s.contains sep then (s.length : Int) - 1 - (s.reverse.indexOf sep : Int) else -1

/-- The function `strings.TrimSuffix(s, suffix)` for a one-byte suffix. -/
def TrimSuffix (s : GoString) (suffix : UInt8) : GoString :=
  if s.getLast? = some suffix then s.dropLast else s

end strings

namespace url

/-- The struct `url.Userinfo`. -/
structure Userinfo where
  username : GoString
  password : GoString
  passwordSet : Bool
deriving DecidableEq, Repr

/-- The struct `url.URL`; `User` is a pointer, nil when there is no user information. -/
structure URL where
  Scheme : GoString
  Opaque : GoString
  User : Option Userinfo
  Host : GoString
  Path : GoString
  RawPath : GoString
  OmitHost : Bool
  ForceQuery : Bool
  RawQuery : GoString
  Fragment : GoString
  RawFragment : GoString
deriving DecidableEq, Repr

/-- The function `stringContainsCTLByte`: some byte is below 0x20 or is 0x7f. -/
def stringContainsCTLByte (s : GoString) : Bool := s.any (fun b => b < 0x20 || b == 0x7f)

/-- The loop of `getScheme` at position `i`, with the bytes from `i` on still to read. -/
def getSchemeLoop (rawURL : GoString) : Nat → List UInt8 → Except GoError (GoString × GoString)
  | _, [] => .ok ([], rawURL)
  | i, c :: cs =>
    if (97 ≤ c && c ≤ 122) || (65 ≤ c && c ≤ 90) then getSchemeLoop rawURL (i + 1) cs
    else if (48 ≤ c && c ≤ 57) || c == 43 || c == 45 || c == 46 then
      if i = 0 then .ok ([], rawURL) else getSchemeLoop rawURL (i + 1) cs
    else if c == 58 then
      if i = 0 then .error ⟨"missing protocol scheme"⟩ else .ok (rawURL.take i, cs)
    else .ok ([], rawURL)

/-- The function `getScheme`: a leading `scheme:` is split off, the scheme being a letter
followed by letters, digits, `+`, `-` and `.`; without one the scheme is empty. -/
def getScheme (rawURL : GoString) : Except GoError (GoString × GoString) :=
  getSchemeLoop rawURL 0 rawURL

end url

namespace http

/-- A `context.Context` interface value; `nil` is the nil interface. -/
inductive Context where
  | nil
  | value (id : Nat)
deriving DecidableEq, Repr

/-- The type `http.Header`, a map from canonical keys to value lists. -/
abbrev Header := List (GoString × List GoString)

/-- The method `Header.Set`: the key is canonicalised and its values are replaced. -/
def Header.Set (h : Header) (key value : GoString) : Header :=
  let k := textproto.CanonicalMIMEHeaderKey key
  (k, [value]) :: h.filter (fun kv => kv.1 != k)

/-- The method `Header.Get`: the first value of the canonicalised key, empty when absent. -/
def Header.Get (h : Header) (key : GoString) : GoString :=
  match h.lookup (textproto.CanonicalMIMEHeaderKey key) with
  | some (v :: _) => v
  | _ => []

/-- The fields of `http.Request` that `NewRequestWithContext` fills from its arguments: `URL`
is the parsed target, `Body` the content of the reader. -/
structure Request where
  ctx : Context
  Method : GoString
  URL : url.URL
  Header : Header
  Body : GoString
  ContentLength : Nat
  Host : GoString
deriving DecidableEq, Repr

/-- An `http.Response` as `Ingestion` uses it: the status code and what `io.ReadAll` yields on
its body (the bytes, or the read error). -/
structure Response where
  StatusCode : Int
  Body : Except GoError GoString

/-- The fields of `http.Transport` that `newClient` sets. Durations are in nanoseconds. -/
structure Transport where
  ProxyFromEnvironment : Bool
  DialTimeout : Nat
  DialKeepAlive : Nat
  ForceAttemptHTTP2 : Bool
  MaxIdleConns : Nat
  MaxIdleConnsPerHost : Nat
  MaxConnsPerHost : Nat
  IdleConnTimeout : Nat
  TLSHandshakeTimeout : Nat
  ExpectContinueTimeout : Nat
  DisableKeepAlives : Bool
  ResponseHeaderTimeout : Nat
  DisableCompression : Bool
deriving DecidableEq, Repr

/-- The fields of `http.Client` that `newClient` sets. -/
structure Client where
  Transport : Transport
  Timeout : Nat
deriving DecidableEq, Repr

/-- The function `validMethod`: a non-empty string of token characters. -/
def validMethod (method : GoString) : Bool :=
  method.length > 0 && method.all textproto.isTokenByte

/-- The function `hasPort`: the last `:` comes after the last `]`. -/
def hasPort (s : GoString) : Bool := strings.LastIndex s 58 > strings.LastIndex s 93

/-- The function `removeEmptyPort`: a host with a port loses a final `:`. -/
def removeEmptyPort (host : GoString) : GoString :=
  if hasPort host then strings.TrimSuffix host 58 else host

end http

/-! ## The calls that depend on data outside this file -/

/-- The standard-library behaviour `Ingestion` depends on, for a request payload type `Req`
(the struct `Ingestion`, declared in another file) and the JSON-bound fields `Fields` of
`IngestionResponse`. -/
structure World (Req Fields : Type) where
  /-- The call `json.Marshal(req)`. -/
  jsonMarshal : Req → Except GoError GoString
  /-- The part of `url.Parse` that follows the control-character check and `getScheme`: from
  the lower-cased scheme, the text after it and the fragment text, every field of the URL but
  `Scheme` (query, authority, path, fragment), or the error it reports. -/
  urlParseRest : GoString → GoString → GoString → Except GoError url.URL
  /-- What `(*URL).String` writes after the scheme and its colon. -/
  urlStringRest : url.URL → GoString
  /-- The call `httpClient.Do(httpReq)`: the round trip, a response or a transport error. -/
  Do : http.Client → http.Request → Except GoError http.Response
  /-- The call `json.Unmarshal(body, res)` on the JSON-bound fields: the error it returns and
  the fields as it leaves them (a failing decode may have written some of them). -/
  jsonUnmarshal : GoString → Fields → Option GoError × Fields

namespace url

/-- The function `url.Parse`: the fragment is cut off at the first `#`; what stands before it
must hold no control character (the error Go reports is a `*url.Error` with `Op = "parse"`
around `net/url: invalid control character in URL`); `getScheme` splits off the scheme, which
is stored in lower case; the remaining fields are the world's. -/
def Parse {Req Fields : Type} (w : World Req Fields) (rawURL : GoString) :
    Except GoError URL :=
  let u := rawURL.takeWhile (fun b => b != 35)
  let frag := (rawURL.dropWhile (fun b => b != 35)).drop 1
  if stringContainsCTLByte u then
    .error ⟨"parse: net/url: invalid control character in URL"⟩
  else match getScheme u with
    | .error err => .error err
    | .ok (scheme, rest) =>
      match w.urlParseRest (strings.ToLower scheme) rest frag with
      | .error err => .error err
      | .ok parsed => .ok { parsed with Scheme := strings.ToLower scheme }

/-- The method `(*URL).String`: the scheme and a colon when the scheme is not empty, then the
rest of the URL. -/
def URL.String {Req Fields : Type} (w : World Req Fields) (u : URL) : GoString :=
  (if u.Scheme = [] then [] else u.Scheme ++ str ":") ++ w.urlStringRest u

end url

namespace http

/-- The function `http.NewRequestWithContext(ctx, method, url, bytes.NewReader(body))`: the
target is parsed, an empty port is removed from the host of the parsed URL, and the request
holds that URL. -/
def NewRequestWithContext {Req Fields : Type} (w : World Req Fields) (ctx : Context)
    (method rawURL body : GoString) : Except GoError Request :=
  let method := if method = [] then str "GET" else method
  if !validMethod method then .error ⟨"net/http: invalid method"⟩
  else if ctx = Context.nil then .error ⟨"net/http: nil Context"⟩
  else match url.Parse w rawURL with
    | .error err => .error err
    | .ok u =>
      let u := { u with Host := removeEmptyPort u.Host }
      .ok {
        ctx := ctx, Method := method, URL := u, Header := [], Body := body,
        ContentLength := body.length, Host := u.Host }

end http

/-! ## `package api` -/

namespace api

/-- The constant `langfuseDefaultEndpoint`. -/
def langfuseDefaultEndpoint : GoString := str "https://cloud.langfuse.com"

/-- The struct `Client`. -/
structure Client where
  baseURL : GoString
  httpClient : http.Client
  auth : GoString
deriving DecidableEq, Repr

/-- The function `basicAuth`. -/
def basicAuth (publicKey secretKey : GoString) : GoString :=
  let auth := publicKey ++ str ":" ++ secretKey
  str "Basic " ++ base64.EncodeToString auth

/-- The function `newClient`, returning the `Client` value it builds; taking its address
is done by the caller `GetInstance`, which owns the heap. -/
def newClient (env : os.Environ) : Client :=
  let langfuseHost := os.Getenv env (str "LANGFUSE_HOST")
  let langfuseHost := if langfuseHost = str "" then langfuseDefaultEndpoint else langfuseHost
  let publicKey := os.Getenv env (str "LANGFUSE_PUBLIC_KEY")
  let secretKey := os.Getenv env (str "LANGFUSE_SECRET_KEY")
  let transport : http.Transport := {
    ProxyFromEnvironment := true
    DialTimeout := 30 * time.Second
    DialKeepAlive := 30 * time.Second
    ForceAttemptHTTP2 := true
    MaxIdleConns := 100
    MaxIdleConnsPerHost := 100
    MaxConnsPerHost := 0
    IdleConnTimeout := 90 * time.Second
    TLSHandshakeTimeout := 10 * time.Second
    ExpectContinueTimeout := 1 * time.Second
    DisableKeepAlives := false
    ResponseHeaderTimeout := 30 * time.Second
    DisableCompression := false }
  let httpClient : http.Client := { Transport := transport, Timeout := time.Second * 30 }
  { baseURL := langfuseHost, httpClient := httpClient, auth := basicAuth publicKey secretKey }

/-- A `*Client`: `none` is the nil pointer, `some a` the address of a heap cell. -/
abbrev ClientPtr := Option Nat

/-- The package-level state: the `done` flag of the variable `once`, the variable `instance`
(here `inst`), and the heap of `Client` values allocated so far, addressed by position. -/
structure Package where
  onceDone : Bool
  inst : ClientPtr
  heap : List Client
deriving DecidableEq, Repr

/-- The package state at program start: `once` unused, `instance` nil, nothing allocated. -/
def Package.init : Package := { onceDone := false, inst := none, heap := [] }

/-- The method `sync.Once.Do(f)` in a single thread: `f` runs only if `done` is unset, and
`done` is set when `f` returns. -/
def onceDo (f : Package → Package) (p : Package) : Package :=
  if p.onceDone then p else { f p with onceDone := true }

/-- The function `GetInstance` under the environment of the moment of the call: the pointer
it returns and the package state it leaves. -/
def GetInstance (env : os.Environ) (p : Package) : ClientPtr × Package :=
  let p1 := onceDo (fun q =>
    { q with inst := some q.heap.length, heap := q.heap ++ [newClient env] }) p
  (p1.inst, p1)

/-- A sequence of `GetInstance` calls, one per environment of the list: the pointers
returned, in order, and the final package state. -/
def getInstances : List os.Environ → Package → List ClientPtr × Package
  | [], p => ([], p)
  | env :: envs, p =>
    let r := GetInstance env p
    let rs := getInstances envs r.2
    (r.1 :: rs.1, rs.2)

/-- The content of the heap cell a pointer designates. -/
def deref (p : Package) (ptr : ClientPtr) : Option Client :=
  match ptr with
  | none => none
  | some a => p.heap.get? a

/-- Modelled from the spec: the declaration of `IngestionResponse` is in another file of the
package. Following the spec it holds the two synthesized fields `Code` (the status code) and
`RawBody` (a `*string`, nil before the call) next to the fields the JSON decoder fills. -/
structure IngestionResponse (Fields : Type) where
  Code : Int
  RawBody : Option GoString
  fields : Fields

/-- What one call of `Ingestion` leaves behind: the error it returns (`none` is nil), the
content of `*res`, and the log of the requests handed to `httpClient.Do`, oldest first. -/
structure Outcome (Fields : Type) where
  err : Option GoError
  res : IngestionResponse Fields
  calls : List http.Request

/-- The method `(c *Client) Ingestion(ctx, req, res)`, run with the call log `log`. Each
`return` of the source is one `Outcome`; the deferred `resp.Body.Close()` has no effect on
the three components and is left out. (The comment at line 82 of the source announces that
the address of `httpClient` is printed; no statement prints anything.) -/
def Client.Ingestion {Req Fields : Type} (w : World Req Fields) (c : Client)
    (ctx : http.Context) (req : Req) (res : IngestionResponse Fields)
    (log : List http.Request) : Outcome Fields :=
  match w.jsonMarshal req with
  | .error err => { err := some err, res := res, calls := log }
  | .ok jsonData =>
    match http.NewRequestWithContext w ctx (str "POST")
        (c.baseURL ++ str "/api/public/ingestion") jsonData with
    | .error err => { err := some err, res := res, calls := log }
    | .ok httpReq =>
      let httpReq := { httpReq with
        Header := httpReq.Header.Set (str "Content-Type") (str "application/json") }
      let httpReq := { httpReq with
        Header := httpReq.Header.Set (str "Authorization") c.auth }
      let log := log ++ [httpReq]
      match w.Do c.httpClient httpReq with
      | .error err => { err := some err, res := res, calls := log }
      | .ok resp =>
        match resp.Body with
        | .error err => { err := some err, res := res, calls := log }
        | .ok body =>
          let res := { res with Code := resp.StatusCode }
          let rawBody := body
          let res := { res with RawBody := some rawBody }
          let decoded := w.jsonUnmarshal body res.fields
          { err := decoded.1, res := { res with fields := decoded.2 }, calls := log }

end api

/-! ## The request that is sent, and concrete inputs -/

namespace api

/-- The value of `httpReq` at the call `c.httpClient.Do(httpReq)`: the request `r0` that
`NewRequestWithContext` returned, after the two `Header.Set` calls. -/
def sentRequest (c : Client) (r0 : http.Request) : http.Request :=
  { r0 with
    Header := [(str "Authorization", [c.auth]), (str "Content-Type", [str "application/json"])] }

end api

/-- The world `w` with a server that answers every request with the given status code and
body, read in full. -/
def World.respond {Req Fields : Type} (w : World Req Fields) (status : Int) (body : GoString) :
    World Req Fields :=
  { w with Do := fun _ _ => .ok { StatusCode := status, Body := .ok body } }

namespace Scenario

/-- The rest of `url.Parse` on the targets of the scenarios, which have the shape
`scheme://host/path` or `scheme://host:port/path` with no user information, query or escape:
the authority, up to the first slash after `//`, is the host, and what follows is the path. -/
def parseRest (_scheme rest frag : GoString) : Except GoError url.URL :=
  .ok { Scheme := [], Opaque := [], User := none,
        Host := (rest.drop 2).takeWhile (fun b => b != 47),
        Path := (rest.drop 2).dropWhile (fun b => b != 47),
        RawPath := [], OmitHost := false, ForceQuery := false, RawQuery := [],
        Fragment := frag, RawFragment := [] }

/-- The rest of `(*URL).String` on the URLs of the scenarios: `//`, the host and the path. -/
def stringRest (u : url.URL) : GoString := str "//" ++ u.Host ++ u.Path

/-- A test server that answers every request with the given status and body. The payload is
the nil `*Ingestion`, which `json.Marshal` encodes as `null`; the decoder is tabulated on the
two bodies of the test servers: the object with the key `ok` sets the field, the text
`not json` is rejected, untouched. -/
def server (status : Int) (body : GoString) : World Unit Bool where
  jsonMarshal := fun _ => .ok (str "null")
  urlParseRest := parseRest
  urlStringRest := stringRest
  Do := fun _ _ => .ok { StatusCode := status, Body := .ok body }
  jsonUnmarshal := fun data fields =>
    if data = str "\x7b\"ok\":true\x7d" then (none, true)
    else if data = str "not json" then
      (some ⟨"invalid character o in literal null (expecting u)"⟩, fields)
    else (none, fields)

/-- A network on which every round trip fails: no server listens. -/
def refused : World Unit Bool where
  jsonMarshal := fun _ => .ok (str "null")
  urlParseRest := parseRest
  urlStringRest := stringRest
  Do := fun _ _ => .error ⟨"dial tcp: connect: connection refused"⟩
  jsonUnmarshal := fun _ fields => (none, fields)

/-- An environment with no variable set. -/
def emptyEnv : os.Environ := fun _ => none

/-- An environment whose `LANGFUSE_HOST` ends in a line feed, as when the value is read from
a file with a final newline. -/
def newlineEnv : os.Environ := fun key =>
  if key = str "LANGFUSE_HOST" then some (str "https://cloud.langfuse.com\n") else none

/-- An environment whose `LANGFUSE_HOST` has an upper-case scheme and an empty port. -/
def upperEnv : os.Environ := fun key =>
  if key = str "LANGFUSE_HOST" then some (str "HTTP://Example.com:") else none

/-- A caller's non-nil context. -/
def background : http.Context := http.Context.value 0

/-- A response struct as the caller allocates it: zero values. -/
def zeroRes : api.IngestionResponse Bool := { Code := 0, RawBody := none, fields := false }

/-- The request `NewRequestWithContext` returns for the default endpoint, the context
`background` and the body `null`. -/
def defaultRequest : http.Request :=
  { ctx := background
    Method := str "POST"
    URL := { Scheme := str "https", Opaque := [], User := none,
             Host := str "cloud.langfuse.com", Path := str "/api/public/ingestion",
             RawPath := [], OmitHost := false, ForceQuery := false, RawQuery := [],
             Fragment := [], RawFragment := [] }
    Header := []
    Body := str "null"
    ContentLength := 4
    Host := str "cloud.langfuse.com" }

end Scenario

/-! ## Go's base64 encoder computes the RFC 4648 encoding -/

namespace base64

theorem encode_eq_alphabet : ∀ i, i < 64 →
    encode i = rfc4648.charByte (rfc4648.alphabet.getD i 'A') := by decide

theorem val3 (a b c : Nat) (hb : b < 256) (hc : c < 256) :
    a <<< 16 ||| b <<< 8 ||| c = a * 65536 + b * 256 + c := by
  have h1 : a <<< 16 ||| b <<< 8 = 2 ^ 8 * (a * 256 + b) := by
    have := Nat.mul_add_lt_is_or (i := 16) (b := b <<< 8) (by rw [Nat.shiftLeft_eq]; omega) a
    rw [Nat.shiftLeft_eq a 16, Nat.mul_comm a, ← this, Nat.shiftLeft_eq]; omega
  rw [h1, ← Nat.mul_add_lt_is_or (by omega)]; omega

theorem val2 (a b : Nat) (hb : b < 256) : a <<< 16 ||| b <<< 8 = a * 65536 + b * 256 := by
  have := val3 a b 0 hb (by omega)
  simpa using this

theorem mask6 (x : Nat) : x &&& 0x3F = x % 64 := Nat.and_pow_two_sub_one_eq_mod x 6

end base64

namespace rfc4648

theorem value_sextet (p q r s t u : Bool) :
    valueOfBits [p, q, r, s, t, u] =
      32 * p.toNat + 16 * q.toNat + 8 * r.toNat + 4 * s.toNat + 2 * t.toNat + u.toNat := by
  simp only [valueOfBits, List.foldl_cons, List.foldl_nil]
  omega

theorem digits_three (b0 b1 b2 : UInt8) (rest : List UInt8) :
    digits (b0 :: b1 :: b2 :: rest) =
      base64.encode (b0.toNat / 4) ::
      base64.encode (b0.toNat % 4 * 16 + b1.toNat / 16) ::
      base64.encode (b1.toNat % 16 * 4 + b2.toNat / 64) ::
      base64.encode (b2.toNat % 64) :: digits rest := by
  have h0 := b0.toNat_lt
  have h1 := b1.toNat_lt
  have h2 := b2.toNat_lt
  have e0 : valueOfBits [b0.toNat.testBit 7, b0.toNat.testBit 6, b0.toNat.testBit 5,
      b0.toNat.testBit 4, b0.toNat.testBit 3, b0.toNat.testBit 2] = b0.toNat / 4 := by
    simp only [value_sextet, Nat.toNat_testBit]; omega
  have e1 : valueOfBits [b0.toNat.testBit 1, b0.toNat.testBit 0, b1.toNat.testBit 7,
      b1.toNat.testBit 6, b1.toNat.testBit 5, b1.toNat.testBit 4] =
      b0.toNat % 4 * 16 + b1.toNat / 16 := by
    simp only [value_sextet, Nat.toNat_testBit]; omega
  have e2 : valueOfBits [b1.toNat.testBit 3, b1.toNat.testBit 2, b1.toNat.testBit 1,
      b1.toNat.testBit 0, b2.toNat.testBit 7, b2.toNat.testBit 6] =
      b1.toNat % 16 * 4 + b2.toNat / 64 := by
    simp only [value_sextet, Nat.toNat_testBit]; omega
  have e3 : valueOfBits [b2.toNat.testBit 5, b2.toNat.testBit 4, b2.toNat.testBit 3,
      b2.toNat.testBit 2, b2.toNat.testBit 1, b2.toNat.testBit 0] = b2.toNat % 64 := by
    simp only [value_sextet, Nat.toNat_testBit]; omega
  have hs : sextets ((b0 :: b1 :: b2 :: rest).flatMap bitsOfOctet) =
      [b0.toNat.testBit 7, b0.toNat.testBit 6, b0.toNat.testBit 5,
        b0.toNat.testBit 4, b0.toNat.testBit 3, b0.toNat.testBit 2] ::
      [b0.toNat.testBit 1, b0.toNat.testBit 0, b1.toNat.testBit 7,
        b1.toNat.testBit 6, b1.toNat.testBit 5, b1.toNat.testBit 4] ::
      [b1.toNat.testBit 3, b1.toNat.testBit 2, b1.toNat.testBit 1,
        b1.toNat.testBit 0, b2.toNat.testBit 7, b2.toNat.testBit 6] ::
      [b2.toNat.testBit 5, b2.toNat.testBit 4, b2.toNat.testBit 3,
        b2.toNat.testBit 2, b2.toNat.testBit 1, b2.toNat.testBit 0] ::
      sextets (rest.flatMap bitsOfOctet) := by
    simp [List.flatMap_cons, bitsOfOctet, sextets]
    rfl
  unfold digits
  rw [hs]
  simp only [List.map_cons, e0, e1, e2, e3]
  rw [base64.encode_eq_alphabet _ (by omega), base64.encode_eq_alphabet _ (by omega),
    base64.encode_eq_alphabet _ (by omega), base64.encode_eq_alphabet _ (by omega)]

theorem digits_two (b0 b1 : UInt8) :
    digits [b0, b1] =
      [base64.encode (b0.toNat / 4), base64.encode (b0.toNat % 4 * 16 + b1.toNat / 16),
        base64.encode (b1.toNat % 16 * 4)] := by
  have h0 := b0.toNat_lt
  have h1 := b1.toNat_lt
  have e0 : valueOfBits [b0.toNat.testBit 7, b0.toNat.testBit 6, b0.toNat.testBit 5,
      b0.toNat.testBit 4, b0.toNat.testBit 3, b0.toNat.testBit 2] = b0.toNat / 4 := by
    simp only [value_sextet, Nat.toNat_testBit]; omega
  have e1 : valueOfBits [b0.toNat.testBit 1, b0.toNat.testBit 0, b1.toNat.testBit 7,
      b1.toNat.testBit 6, b1.toNat.testBit 5, b1.toNat.testBit 4] =
      b0.toNat % 4 * 16 + b1.toNat / 16 := by
    simp only [value_sextet, Nat.toNat_testBit]; omega
  have e2 : valueOfBits [b1.toNat.testBit 3, b1.toNat.testBit 2, b1.toNat.testBit 1,
      b1.toNat.testBit 0, false, false] = b1.toNat % 16 * 4 := by
    simp only [value_sextet, Nat.toNat_testBit, Bool.toNat_false]; omega
  have hs : sextets ([b0, b1].flatMap bitsOfOctet) =
      [[b0.toNat.testBit 7, b0.toNat.testBit 6, b0.toNat.testBit 5,
        b0.toNat.testBit 4, b0.toNat.testBit 3, b0.toNat.testBit 2],
      [b0.toNat.testBit 1, b0.toNat.testBit 0, b1.toNat.testBit 7,
        b1.toNat.testBit 6, b1.toNat.testBit 5, b1.toNat.testBit 4],
      [b1.toNat.testBit 3, b1.toNat.testBit 2, b1.toNat.testBit 1,
        b1.toNat.testBit 0, false, false]] := by
    simp [List.flatMap_cons, bitsOfOctet, sextets]
  unfold digits
  rw [hs]
  simp only [List.map_cons, List.map_nil, e0, e1, e2]
  rw [base64.encode_eq_alphabet _ (by omega), base64.encode_eq_alphabet _ (by omega),
    base64.encode_eq_alphabet _ (by omega)]

theorem digits_one (b0 : UInt8) :
    digits [b0] = [base64.encode (b0.toNat / 4), base64.encode (b0.toNat % 4 * 16)] := by
  have h0 := b0.toNat_lt
  have e0 : valueOfBits [b0.toNat.testBit 7, b0.toNat.testBit 6, b0.toNat.testBit 5,
      b0.toNat.testBit 4, b0.toNat.testBit 3, b0.toNat.testBit 2] = b0.toNat / 4 := by
    simp only [value_sextet, Nat.toNat_testBit]; omega
  have e1 : valueOfBits [b0.toNat.testBit 1, b0.toNat.testBit 0, false, false, false,
      false] = b0.toNat % 4 * 16 := by
    simp only [value_sextet, Nat.toNat_testBit, Bool.toNat_false]; omega
  have hs : sextets ([b0].flatMap bitsOfOctet) =
      [[b0.toNat.testBit 7, b0.toNat.testBit 6, b0.toNat.testBit 5,
        b0.toNat.testBit 4, b0.toNat.testBit 3, b0.toNat.testBit 2],
      [b0.toNat.testBit 1, b0.toNat.testBit 0, false, false, false, false]] := by
    simp [List.flatMap_cons, bitsOfOctet, sextets]
  unfold digits
  rw [hs]
  simp only [List.map_cons, List.map_nil, e0, e1]
  rw [base64.encode_eq_alphabet _ (by omega), base64.encode_eq_alphabet _ (by omega)]

end rfc4648

/-- Go's `Encode` for `StdEncoding` yields the RFC 4648 padded base64 encoding of every byte
sequence. -/
theorem base64.Encode_eq_rfc4648 (src : List UInt8) :
    base64.Encode src = rfc4648.base64 src := by
  induction src using base64.Encode.induct with
  | case1 b0 b1 b2 rest ih =>
    have h0 := b0.toNat_lt
    have h1 := b1.toNat_lt
    have h2 := b2.toNat_lt
    have hl : (4 - (rfc4648.digits (b0 :: b1 :: b2 :: rest)).length % 4) % 4 =
        (4 - (rfc4648.digits rest).length % 4) % 4 := by
      rw [rfc4648.digits_three]; simp only [List.length_cons]; omega
    have e0 : (b0.toNat * 65536 + b1.toNat * 256 + b2.toNat) / 2 ^ 18 % 64 =
        b0.toNat / 4 := by omega
    have e1 : (b0.toNat * 65536 + b1.toNat * 256 + b2.toNat) / 2 ^ 12 % 64 =
        b0.toNat % 4 * 16 + b1.toNat / 16 := by omega
    have e2 : (b0.toNat * 65536 + b1.toNat * 256 + b2.toNat) / 2 ^ 6 % 64 =
        b1.toNat % 16 * 4 + b2.toNat / 64 := by omega
    have e3 : (b0.toNat * 65536 + b1.toNat * 256 + b2.toNat) % 64 = b2.toNat % 64 := by omega
    unfold rfc4648.base64 at ih ⊢
    simp only [hl]
    rw [rfc4648.digits_three, base64.Encode, ih]
    simp only [base64.val3 _ _ _ h1 h2, base64.mask6, Nat.shiftRight_eq_div_pow,
      List.cons_append, e0, e1, e2, e3]
  | case2 b0 b1 =>
    have h0 := b0.toNat_lt
    have h1 := b1.toNat_lt
    unfold rfc4648.base64
    rw [rfc4648.digits_two, base64.Encode]
    simp only [base64.val2 _ _ h1, base64.mask6, Nat.shiftRight_eq_div_pow]
    have e0 : (b0.toNat * 65536 + b1.toNat * 256) / 2 ^ 18 % 64 = b0.toNat / 4 := by omega
    have e1 : (b0.toNat * 65536 + b1.toNat * 256) / 2 ^ 12 % 64 =
        b0.toNat % 4 * 16 + b1.toNat / 16 := by omega
    have e2 : (b0.toNat * 65536 + b1.toNat * 256) / 2 ^ 6 % 64 = b1.toNat % 16 * 4 := by omega
    rw [e0, e1, e2]
    rfl
  | case3 b0 =>
    have h0 := b0.toNat_lt
    unfold rfc4648.base64
    rw [rfc4648.digits_one, base64.Encode]
    simp only [base64.mask6, Nat.shiftRight_eq_div_pow, Nat.shiftLeft_eq]
    have e0 : b0.toNat * 2 ^ 16 / 2 ^ 18 % 64 = b0.toNat / 4 := by omega
    have e1 : b0.toNat * 2 ^ 16 / 2 ^ 12 % 64 = b0.toNat % 4 * 16 := by omega
    rw [e0, e1]
    rfl
  | case4 => rfl

/-! ## The singleton accessor -/

namespace api

theorem GetInstance_done (env : os.Environ) (p : Package) (h : p.onceDone = true) :
    GetInstance env p = (p.inst, p) := by
  simp [GetInstance, onceDo, h]

theorem getInstances_done (envs : List os.Environ) (p : Package) (h : p.onceDone = true) :
    getInstances envs p = (List.replicate envs.length p.inst, p) := by
  induction envs with
  | nil => rfl
  | cons env envs ih =>
    simp only [getInstances, GetInstance_done env p h, ih, List.length_cons,
      List.replicate_succ]

theorem GetInstance_init (env : os.Environ) :
    GetInstance env Package.init =
      (some 0, { onceDone := true, inst := some 0, heap := [newClient env] }) := by
  simp [GetInstance, onceDo, Package.init]

end api

/-- C1: `basicAuth publicKey secretKey` is `"Basic "` followed by the standard padded base64
encoding (RFC 4648) of the bytes of `publicKey ++ ":" ++ secretKey`, for every pair of byte
strings, the empty ones included; and the `auth` field of the client `newClient` builds is
`basicAuth` of the values of `LANGFUSE_PUBLIC_KEY` and `LANGFUSE_SECRET_KEY`. -/
theorem basicAuth_is_basic_base64 (publicKey secretKey : GoString) (env : os.Environ) :
    api.basicAuth publicKey secretKey =
        str "Basic " ++ rfc4648.base64 (publicKey ++ str ":" ++ secretKey) ∧
      (api.newClient env).auth =
        api.basicAuth (os.Getenv env (str "LANGFUSE_PUBLIC_KEY"))
          (os.Getenv env (str "LANGFUSE_SECRET_KEY")) := by
  refine ⟨?_, rfl⟩
  simp only [api.basicAuth, base64.EncodeToString, base64.Encode_eq_rfc4648]

/-- C2: the `baseURL` of the client `newClient` builds is `"https://cloud.langfuse.com"` when
`LANGFUSE_HOST` is unset or set to the empty string, and otherwise is the value of
`LANGFUSE_HOST` itself, byte for byte. -/
theorem newClient_baseURL (env : os.Environ) :
    (api.newClient env).baseURL =
      match env (str "LANGFUSE_HOST") with
      | none => str "https://cloud.langfuse.com"
      | some x => if x = [] then str "https://cloud.langfuse.com" else x := by
  have hempty : str "" = [] := by decide
  cases h : env (str "LANGFUSE_HOST") with
  | none => simp [api.newClient, os.Getenv, h, hempty, api.langfuseDefaultEndpoint]
  | some x =>
    by_cases hx : x = []
    · simp [api.newClient, os.Getenv, h, hx, hempty, api.langfuseDefaultEndpoint]
    · simp [api.newClient, os.Getenv, h, hx, hempty]

/-- C3: with the package state explicit, any sequence of `GetInstance` calls from program
start, under any environments, returns the same non-nil pointer at every call; the heap holds
a single `Client`, the one `newClient` built during the first call from the environment of
that call, so the environments of the later calls have no effect on it. -/
theorem getInstances_singleton (env0 : os.Environ) (envs : List os.Environ) :
    (api.getInstances (env0 :: envs) api.Package.init).1 =
        List.replicate (envs.length + 1) (some 0) ∧
      (api.getInstances (env0 :: envs) api.Package.init).2.heap = [api.newClient env0] ∧
      (api.getInstances (env0 :: envs) api.Package.init).2 =
        (api.GetInstance env0 api.Package.init).2 ∧
      (∀ ptr ∈ (api.getInstances (env0 :: envs) api.Package.init).1,
        ∃ c, api.deref (api.getInstances (env0 :: envs) api.Package.init).2 ptr = some c ∧
          c = api.newClient env0 ∧
          c.baseURL = (if os.Getenv env0 (str "LANGFUSE_HOST") = [] then
            api.langfuseDefaultEndpoint else os.Getenv env0 (str "LANGFUSE_HOST")) ∧
          c.auth = api.basicAuth (os.Getenv env0 (str "LANGFUSE_PUBLIC_KEY"))
            (os.Getenv env0 (str "LANGFUSE_SECRET_KEY"))) := by
  have hrun : api.getInstances (env0 :: envs) api.Package.init =
      (List.replicate (envs.length + 1) (some 0),
        { onceDone := true, inst := some 0, heap := [api.newClient env0] }) := by
    simp only [api.getInstances, api.GetInstance_init, List.replicate_succ,
      api.getInstances_done envs
        { onceDone := true, inst := some 0, heap := [api.newClient env0] } rfl]
  rw [hrun, api.GetInstance_init]
  refine ⟨rfl, rfl, rfl, ?_⟩
  intro ptr hptr
  have hp : ptr = some 0 := List.eq_of_mem_replicate hptr
  subst hp
  exact ⟨api.newClient env0, rfl, rfl, rfl, rfl⟩

/-! ## `Ingestion` -/

namespace url

/-- The scheme of a parsed URL is the scheme `getScheme` finds, in lower case. -/
theorem Parse_scheme {Req Fields : Type} (w : World Req Fields) (rawURL : GoString) (u : URL)
    (scheme rest : GoString) (h : Parse w rawURL = .ok u)
    (hs : getScheme (rawURL.takeWhile (fun b => b != 35)) = .ok (scheme, rest)) :
    u.Scheme = strings.ToLower scheme := by
  unfold Parse at h
  simp only [hs] at h
  split at h
  · cases h
  · split at h
    · cases h
    · cases h
      rfl

end url

namespace http

theorem NewRequestWithContext_POST {Req Fields : Type} (w : World Req Fields) (ctx : Context)
    (rawURL body : GoString) :
    NewRequestWithContext w ctx (str "POST") rawURL body =
      if ctx = Context.nil then .error ⟨"net/http: nil Context"⟩
      else match url.Parse w rawURL with
        | .error err => .error err
        | .ok u => .ok {
            ctx := ctx, Method := str "POST", URL := { u with Host := removeEmptyPort u.Host },
            Header := [], Body := body, ContentLength := body.length,
            Host := removeEmptyPort u.Host } := by
  have h1 : (str "POST" = []) = False := by decide
  have h2 : validMethod (str "POST") = true := by decide
  simp only [NewRequestWithContext, h1, if_false, h2, Bool.not_true, Bool.false_eq_true]

/-- What a request returned by `NewRequestWithContext` for the method POST holds. -/
theorem NewRequestWithContext_ok {Req Fields : Type} (w : World Req Fields) (ctx : Context)
    (rawURL body : GoString) (r0 : Request)
    (h : NewRequestWithContext w ctx (str "POST") rawURL body = .ok r0) :
    ∃ u, url.Parse w rawURL = .ok u ∧
      r0 = { ctx := ctx, Method := str "POST", URL := { u with Host := removeEmptyPort u.Host },
             Header := [], Body := body, ContentLength := body.length,
             Host := removeEmptyPort u.Host } := by
  rw [NewRequestWithContext_POST] at h
  by_cases hc : ctx = Context.nil
  · simp [hc] at h
  · simp only [hc, if_false] at h
    cases hp : url.Parse w rawURL with
    | error e => simp [hp] at h
    | ok u =>
      simp only [hp] at h
      exact ⟨u, rfl, by cases h; rfl⟩

end http

namespace api

theorem sentRequest_eq (c : Client) (r0 : http.Request) (h : r0.Header = []) :
    ({ ({ r0 with
          Header := http.Header.Set r0.Header (str "Content-Type") (str "application/json") } :
          http.Request) with
        Header := http.Header.Set
          (http.Header.Set r0.Header (str "Content-Type") (str "application/json"))
          (str "Authorization") c.auth } : http.Request) =
      sentRequest c r0 := by
  have h1 : textproto.CanonicalMIMEHeaderKey (str "Content-Type") = str "Content-Type" := by
    decide
  have h2 : textproto.CanonicalMIMEHeaderKey (str "Authorization") = str "Authorization" := by
    decide
  have h3 : (str "Content-Type" != str "Authorization") = true := by decide
  simp [sentRequest, http.Header.Set, h, h1, h2, h3]

/-- The five ways through `Ingestion`, one per `return` statement. -/
theorem Ingestion_eq {Req Fields : Type} (w : World Req Fields) (c : Client)
    (ctx : http.Context) (req : Req) (res : IngestionResponse Fields)
    (log : List http.Request) :
    Client.Ingestion w c ctx req res log =
      match w.jsonMarshal req with
      | .error err => { err := some err, res := res, calls := log }
      | .ok jsonData =>
        match http.NewRequestWithContext w ctx (str "POST")
            (c.baseURL ++ str "/api/public/ingestion") jsonData with
        | .error err => { err := some err, res := res, calls := log }
        | .ok r0 =>
          match w.Do c.httpClient (sentRequest c r0) with
          | .error err =>
            { err := some err, res := res, calls := log ++ [sentRequest c r0] }
          | .ok resp =>
            match resp.Body with
            | .error err =>
              { err := some err, res := res, calls := log ++ [sentRequest c r0] }
            | .ok body =>
              { err := (w.jsonUnmarshal body res.fields).1
                res := { Code := resp.StatusCode, RawBody := some body,
                         fields := (w.jsonUnmarshal body res.fields).2 }
                calls := log ++ [sentRequest c r0] } := by
  unfold Client.Ingestion
  cases hm : w.jsonMarshal req with
  | error e => rfl
  | ok jsonData =>
    dsimp only
    cases hn : http.NewRequestWithContext w ctx (str "POST")
        (c.baseURL ++ str "/api/public/ingestion") jsonData with
    | error e => rfl
    | ok r0 =>
      obtain ⟨u, _, hr0⟩ := http.NewRequestWithContext_ok w ctx _ jsonData r0 hn
      have hh : r0.Header = [] := by rw [hr0]
      dsimp only
      rw [sentRequest_eq c r0 hh]

end api

namespace api

/-- The five ways through `Ingestion` as a case distinction on what it leaves behind. -/
theorem Ingestion_cases {Req Fields : Type} (w : World Req Fields) (c : Client)
    (ctx : http.Context) (req : Req) (res : IngestionResponse Fields)
    (log : List http.Request) :
    (∃ e, w.jsonMarshal req = .error e ∧
      Client.Ingestion w c ctx req res log = { err := some e, res := res, calls := log }) ∨
    (∃ jsonData e, w.jsonMarshal req = .ok jsonData ∧
      http.NewRequestWithContext w ctx (str "POST")
        (c.baseURL ++ str "/api/public/ingestion") jsonData = .error e ∧
      Client.Ingestion w c ctx req res log = { err := some e, res := res, calls := log }) ∨
    (∃ jsonData r0 e, w.jsonMarshal req = .ok jsonData ∧
      http.NewRequestWithContext w ctx (str "POST")
        (c.baseURL ++ str "/api/public/ingestion") jsonData = .ok r0 ∧
      w.Do c.httpClient (sentRequest c r0) = .error e ∧
      Client.Ingestion w c ctx req res log =
        { err := some e, res := res, calls := log ++ [sentRequest c r0] }) ∨
    (∃ jsonData r0 resp e, w.jsonMarshal req = .ok jsonData ∧
      http.NewRequestWithContext w ctx (str "POST")
        (c.baseURL ++ str "/api/public/ingestion") jsonData = .ok r0 ∧
      w.Do c.httpClient (sentRequest c r0) = .ok resp ∧ resp.Body = .error e ∧
      Client.Ingestion w c ctx req res log =
        { err := some e, res := res, calls := log ++ [sentRequest c r0] }) ∨
    (∃ jsonData r0 resp body, w.jsonMarshal req = .ok jsonData ∧
      http.NewRequestWithContext w ctx (str "POST")
        (c.baseURL ++ str "/api/public/ingestion") jsonData = .ok r0 ∧
      w.Do c.httpClient (sentRequest c r0) = .ok resp ∧ resp.Body = .ok body ∧
      Client.Ingestion w c ctx req res log =
        { err := (w.jsonUnmarshal body res.fields).1
          res := { Code := resp.StatusCode, RawBody := some body,
                   fields := (w.jsonUnmarshal body res.fields).2 }
          calls := log ++ [sentRequest c r0] }) := by
  rw [Ingestion_eq]
  cases hm : w.jsonMarshal req with
  | error e => exact Or.inl ⟨e, rfl, rfl⟩
  | ok jsonData =>
    cases hn : http.NewRequestWithContext w ctx (str "POST")
        (c.baseURL ++ str "/api/public/ingestion") jsonData with
    | error e =>
      refine Or.inr (Or.inl ⟨jsonData, e, rfl, hn, ?_⟩)
      simp only [hn]
    | ok r0 =>
      cases hd : w.Do c.httpClient (sentRequest c r0) with
      | error e =>
        refine Or.inr (Or.inr (Or.inl ⟨jsonData, r0, e, rfl, hn, hd, ?_⟩))
        simp only [hn, hd]
      | ok resp =>
        cases hb : resp.Body with
        | error e =>
          refine Or.inr (Or.inr (Or.inr (Or.inl ⟨jsonData, r0, resp, e, rfl, hn, hd, hb, ?_⟩)))
          simp only [hn, hd, hb]
        | ok body =>
          refine Or.inr (Or.inr (Or.inr (Or.inr ⟨jsonData, r0, resp, body, rfl, hn, hd, hb, ?_⟩)))
          simp only [hn, hd, hb]

end api

/-- C4: when the request handed to `httpClient.Do` gets a response and its body is read in
full, `Ingestion` leaves `res.Code` equal to the status code and `res.RawBody` pointing to the
body text, and returns what the decoder returns, whether or not the body decodes; so for
status 500 and body `not json`, which the decoder rejects, the decode error is returned with
`Code = 500` and `RawBody = "not json"`, and for status 200 and a body the decoder accepts,
nil is returned with `Code = 200` and `RawBody` the body. -/
theorem Ingestion_records_status_and_body {Req Fields : Type} (w : World Req Fields)
    (c : api.Client) (ctx : http.Context) (req : Req) (res : api.IngestionResponse Fields)
    (log : List http.Request) (r : http.Request) (resp : http.Response) (body : GoString)
    (hcall : (api.Client.Ingestion w c ctx req res log).calls = log ++ [r])
    (hdo : w.Do c.httpClient r = .ok resp) (hbody : resp.Body = .ok body) :
    (api.Client.Ingestion w c ctx req res log).res.Code = resp.StatusCode ∧
      (api.Client.Ingestion w c ctx req res log).res.RawBody = some body ∧
      (api.Client.Ingestion w c ctx req res log).err = (w.jsonUnmarshal body res.fields).1 ∧
      (∀ e, resp.StatusCode = 500 → body = str "not json" →
        (w.jsonUnmarshal (str "not json") res.fields).1 = some e →
        (api.Client.Ingestion w c ctx req res log).err = some e ∧
          (api.Client.Ingestion w c ctx req res log).res.Code = 500 ∧
          (api.Client.Ingestion w c ctx req res log).res.RawBody = some (str "not json")) ∧
      (resp.StatusCode = 200 → body = str "\x7b\"ok\":true\x7d" →
        (w.jsonUnmarshal (str "\x7b\"ok\":true\x7d") res.fields).1 = none →
        (api.Client.Ingestion w c ctx req res log).err = none ∧
          (api.Client.Ingestion w c ctx req res log).res.Code = 200 ∧
          (api.Client.Ingestion w c ctx req res log).res.RawBody =
            some (str "\x7b\"ok\":true\x7d")) := by
  have key : (api.Client.Ingestion w c ctx req res log).res.Code = resp.StatusCode ∧
      (api.Client.Ingestion w c ctx req res log).res.RawBody = some body ∧
      (api.Client.Ingestion w c ctx req res log).err = (w.jsonUnmarshal body res.fields).1 := by
    rcases api.Ingestion_cases w c ctx req res log with
      ⟨e, _, h⟩ | ⟨d, e, _, _, h⟩ | ⟨d, r0, e, _, _, hd, h⟩ | ⟨d, r0, resp1, e, _, _, hd, hb, h⟩ |
      ⟨d, r0, resp1, body1, _, _, hd, hb, h⟩
    · rw [h] at hcall; simp at hcall
    · rw [h] at hcall; simp at hcall
    · rw [h] at hcall
      have hr : api.sentRequest c r0 = r := by simpa using hcall
      rw [hr, hdo] at hd; cases hd
    · rw [h] at hcall
      have hr : api.sentRequest c r0 = r := by simpa using hcall
      rw [hr, hdo] at hd; cases hd
      rw [hbody] at hb; cases hb
    · rw [h] at hcall
      have hr : api.sentRequest c r0 = r := by simpa using hcall
      rw [hr, hdo] at hd; cases hd
      rw [hbody] at hb; cases hb
      rw [h]
      exact ⟨rfl, rfl, rfl⟩
  obtain ⟨k1, k2, k3⟩ := key
  refine ⟨k1, k2, k3, ?_, ?_⟩
  · intro e hs hb he
    subst hb
    exact ⟨by rw [k3, he], by rw [k1, hs], k2⟩
  · intro hs hb he
    subst hb
    exact ⟨by rw [k3, he], by rw [k1, hs], k2⟩

/-- C4 witness: the two test servers of the spec, status 500 with body `not json` and status
200 with the object body. -/
theorem Ingestion_records_status_and_body_witness :
    ((api.Client.Ingestion (Scenario.server 500 (str "not json"))
        (api.newClient Scenario.emptyEnv) Scenario.background () Scenario.zeroRes []).err =
        some ⟨"invalid character o in literal null (expecting u)"⟩ ∧
      (api.Client.Ingestion (Scenario.server 500 (str "not json"))
        (api.newClient Scenario.emptyEnv) Scenario.background () Scenario.zeroRes []).res.Code =
        500 ∧
      (api.Client.Ingestion (Scenario.server 500 (str "not json"))
        (api.newClient Scenario.emptyEnv) Scenario.background () Scenario.zeroRes []).res.RawBody =
        some (str "not json")) ∧
    ((api.Client.Ingestion (Scenario.server 200 (str "\x7b\"ok\":true\x7d"))
        (api.newClient Scenario.emptyEnv) Scenario.background () Scenario.zeroRes []).err =
        none ∧
      (api.Client.Ingestion (Scenario.server 200 (str "\x7b\"ok\":true\x7d"))
        (api.newClient Scenario.emptyEnv) Scenario.background () Scenario.zeroRes []).res.Code =
        200 ∧
      (api.Client.Ingestion (Scenario.server 200 (str "\x7b\"ok\":true\x7d"))
        (api.newClient Scenario.emptyEnv) Scenario.background () Scenario.zeroRes []).res.RawBody =
        some (str "\x7b\"ok\":true\x7d")) :=
  ⟨(Ingestion_records_status_and_body (Scenario.server 500 (str "not json"))
      (api.newClient Scenario.emptyEnv) Scenario.background () Scenario.zeroRes []
      (api.sentRequest (api.newClient Scenario.emptyEnv) Scenario.defaultRequest)
      { StatusCode := 500, Body := .ok (str "not json") } (str "not json")
      (by decide) rfl rfl).2.2.2.1 ⟨"invalid character o in literal null (expecting u)"⟩
      rfl rfl (by decide),
   (Ingestion_records_status_and_body (Scenario.server 200 (str "\x7b\"ok\":true\x7d"))
      (api.newClient Scenario.emptyEnv) Scenario.background () Scenario.zeroRes []
      (api.sentRequest (api.newClient Scenario.emptyEnv) Scenario.defaultRequest)
      { StatusCode := 200, Body := .ok (str "\x7b\"ok\":true\x7d") }
      (str "\x7b\"ok\":true\x7d")
      (by decide) rfl rfl).2.2.2.2 rfl rfl (by decide)⟩

namespace api

/-- The call log grows by the request built from the encoded payload, or not at all. -/
theorem Ingestion_calls_inv {Req Fields : Type} (w : World Req Fields) (c : Client)
    (ctx : http.Context) (req : Req) (res : IngestionResponse Fields)
    (log : List http.Request) (r : http.Request)
    (h : (Client.Ingestion w c ctx req res log).calls = log ++ [r]) :
    ∃ jsonData r0, w.jsonMarshal req = .ok jsonData ∧
      http.NewRequestWithContext w ctx (str "POST")
        (c.baseURL ++ str "/api/public/ingestion") jsonData = .ok r0 ∧
      r = sentRequest c r0 := by
  rcases Ingestion_cases w c ctx req res log with
    ⟨e, _, h1⟩ | ⟨d, e, _, _, h1⟩ | ⟨d, r0, e, hm, hn, _, h1⟩ | ⟨d, r0, resp1, e, hm, hn, _, _, h1⟩ |
    ⟨d, r0, resp1, body1, hm, hn, _, _, h1⟩
  · rw [h1] at h; simp at h
  · rw [h1] at h; simp at h
  · rw [h1] at h; exact ⟨d, r0, hm, hn, by simpa using h.symm⟩
  · rw [h1] at h; exact ⟨d, r0, hm, hn, by simpa using h.symm⟩
  · rw [h1] at h; exact ⟨d, r0, hm, hn, by simpa using h.symm⟩

/-- Once the payload is encoded and the request constructed, exactly that request is sent. -/
theorem Ingestion_calls_of_request {Req Fields : Type} (w : World Req Fields) (c : Client)
    (ctx : http.Context) (req : Req) (res : IngestionResponse Fields)
    (log : List http.Request) (jsonData : GoString) (r0 : http.Request)
    (hm : w.jsonMarshal req = .ok jsonData)
    (hn : http.NewRequestWithContext w ctx (str "POST")
        (c.baseURL ++ str "/api/public/ingestion") jsonData = .ok r0) :
    (Client.Ingestion w c ctx req res log).calls = log ++ [sentRequest c r0] := by
  rw [Ingestion_eq]
  simp only [hm, hn]
  cases w.Do c.httpClient (sentRequest c r0) with
  | error e => rfl
  | ok resp =>
    cases hb : resp.Body with
    | error e => simp only [hb]
    | ok body => simp only [hb]

/-- The log is left alone when encoding or request construction fails. -/
theorem Ingestion_calls_of_no_request {Req Fields : Type} (w : World Req Fields) (c : Client)
    (ctx : http.Context) (req : Req) (res : IngestionResponse Fields)
    (log : List http.Request)
    (h : (∃ e, w.jsonMarshal req = .error e) ∨ ∃ jsonData e, w.jsonMarshal req = .ok jsonData ∧
      http.NewRequestWithContext w ctx (str "POST")
        (c.baseURL ++ str "/api/public/ingestion") jsonData = .error e) :
    (Client.Ingestion w c ctx req res log).calls = log := by
  rw [Ingestion_eq]
  rcases h with ⟨e, hm⟩ | ⟨d, e, hm, hn⟩
  · simp only [hm]
  · simp only [hm, hn]

theorem sentRequest_shape (c : Client) (r0 : http.Request) :
    (sentRequest c r0).Method = r0.Method ∧
      (sentRequest c r0).URL = r0.URL ∧
      (sentRequest c r0).Header.Get (str "Content-Type") = str "application/json" ∧
      (sentRequest c r0).Header.Get (str "Authorization") = c.auth ∧
      (sentRequest c r0).Body = r0.Body ∧
      (sentRequest c r0).ctx = r0.ctx := by
  have h1 : textproto.CanonicalMIMEHeaderKey (str "Content-Type") = str "Content-Type" := by
    decide
  have h2 : textproto.CanonicalMIMEHeaderKey (str "Authorization") = str "Authorization" := by
    decide
  have h3 : (str "Content-Type" == str "Authorization") = false := by decide
  refine ⟨rfl, rfl, ?_, ?_, rfl, rfl⟩
  · simp [sentRequest, http.Header.Get, h1, List.lookup, h3]
  · simp [sentRequest, http.Header.Get, h2, List.lookup]

end api

/-- C5 (as the code has it): when the payload encodes to JSON, the request `Ingestion` hands
to `httpClient.Do` has method POST, `Content-Type: application/json`, `Authorization` equal to
`c.auth`, the JSON encoding as body and the caller's context; its URL is the one `url.Parse`
yields for the target string `c.baseURL ++ "/api/public/ingestion"`, with the scheme in lower
case and an empty port removed from the host. It is the only request handed over, and it is
handed over whenever request construction succeeds. -/
theorem Ingestion_request_shape {Req Fields : Type} (w : World Req Fields) (c : api.Client)
    (ctx : http.Context) (req : Req) (res : api.IngestionResponse Fields)
    (log : List http.Request) (jsonData : GoString)
    (hm : w.jsonMarshal req = .ok jsonData) :
    (∀ r, (api.Client.Ingestion w c ctx req res log).calls = log ++ [r] →
      r.Method = str "POST" ∧
      (∃ u, url.Parse w (c.baseURL ++ str "/api/public/ingestion") = .ok u ∧
        r.URL = { u with Host := http.removeEmptyPort u.Host } ∧
        r.Host = http.removeEmptyPort u.Host ∧
        (∀ scheme rest, url.getScheme
            ((c.baseURL ++ str "/api/public/ingestion").takeWhile (fun b => b != 35)) =
            .ok (scheme, rest) → r.URL.Scheme = strings.ToLower scheme)) ∧
      r.Header.Get (str "Content-Type") = str "application/json" ∧
      r.Header.Get (str "Authorization") = c.auth ∧
      r.Body = jsonData ∧
      r.ctx = ctx) ∧
    ((api.Client.Ingestion w c ctx req res log).calls = log ∨
      ∃ r, (api.Client.Ingestion w c ctx req res log).calls = log ++ [r]) ∧
    (∀ r0, http.NewRequestWithContext w ctx (str "POST")
        (c.baseURL ++ str "/api/public/ingestion") jsonData = .ok r0 →
      ∃ r, (api.Client.Ingestion w c ctx req res log).calls = log ++ [r]) := by
  refine ⟨?_, ?_, ?_⟩
  · intro r hr
    obtain ⟨d, r0, hm1, hn, hr1⟩ := api.Ingestion_calls_inv w c ctx req res log r hr
    rw [hm] at hm1
    cases hm1
    obtain ⟨u, hu, hr0⟩ := http.NewRequestWithContext_ok w ctx _ jsonData r0 hn
    obtain ⟨k1, k2, k3, k4, k5, k6⟩ := api.sentRequest_shape c r0
    subst hr1
    rw [k1, k2, k5, k6, hr0]
    refine ⟨rfl, ⟨u, hu, rfl, rfl, ?_⟩, k3, k4, rfl, rfl⟩
    intro scheme rest hs
    exact url.Parse_scheme w _ u scheme rest hu hs
  · cases hn : http.NewRequestWithContext w ctx (str "POST")
        (c.baseURL ++ str "/api/public/ingestion") jsonData with
    | error e =>
      exact Or.inl (api.Ingestion_calls_of_no_request w c ctx req res log
        (Or.inr ⟨jsonData, e, hm, hn⟩))
    | ok r0 =>
      exact Or.inr ⟨_, api.Ingestion_calls_of_request w c ctx req res log jsonData r0 hm hn⟩
  · intro r0 hn
    exact ⟨_, api.Ingestion_calls_of_request w c ctx req res log jsonData r0 hm hn⟩

/-- C5 witness: the default client posting the nil payload to a server answering 200; the
request's URL is the parsed default endpoint with the ingestion path. -/
theorem Ingestion_request_shape_witness :
    (api.sentRequest (api.newClient Scenario.emptyEnv) Scenario.defaultRequest).Method =
        str "POST" ∧
      (∃ u, url.Parse (Scenario.server 200 (str "ok"))
          ((api.newClient Scenario.emptyEnv).baseURL ++ str "/api/public/ingestion") = .ok u ∧
        (api.sentRequest (api.newClient Scenario.emptyEnv) Scenario.defaultRequest).URL =
          { u with Host := http.removeEmptyPort u.Host } ∧
        (api.sentRequest (api.newClient Scenario.emptyEnv) Scenario.defaultRequest).Host =
          http.removeEmptyPort u.Host ∧
        (∀ scheme rest, url.getScheme
            (((api.newClient Scenario.emptyEnv).baseURL ++
              str "/api/public/ingestion").takeWhile (fun b => b != 35)) =
            .ok (scheme, rest) →
          (api.sentRequest (api.newClient Scenario.emptyEnv) Scenario.defaultRequest).URL.Scheme =
            strings.ToLower scheme)) ∧
      (api.sentRequest (api.newClient Scenario.emptyEnv) Scenario.defaultRequest).Header.Get
        (str "Content-Type") = str "application/json" ∧
      (api.sentRequest (api.newClient Scenario.emptyEnv) Scenario.defaultRequest).Header.Get
        (str "Authorization") = (api.newClient Scenario.emptyEnv).auth ∧
      (api.sentRequest (api.newClient Scenario.emptyEnv) Scenario.defaultRequest).Body =
        str "null" ∧
      (api.sentRequest (api.newClient Scenario.emptyEnv) Scenario.defaultRequest).ctx =
        Scenario.background :=
  (Ingestion_request_shape (Scenario.server 200 (str "ok")) (api.newClient Scenario.emptyEnv)
    Scenario.background () Scenario.zeroRes [] (str "null") rfl).1
    (api.sentRequest (api.newClient Scenario.emptyEnv) Scenario.defaultRequest)
    (by decide)

/-- C5 counterexample: with `LANGFUSE_HOST` set to `HTTP://Example.com:` the one request
handed to `httpClient.Do` has the URL `http://Example.com/api/public/ingestion` (scheme in
lower case, empty port removed), which is not the string
`c.baseURL ++ "/api/public/ingestion"`. -/
theorem Ingestion_url_normalised_counterexample :
    (api.newClient Scenario.upperEnv).baseURL ++ str "/api/public/ingestion" =
        str "HTTP://Example.com:/api/public/ingestion" ∧
      (api.Client.Ingestion (Scenario.server 200 (str "ok")) (api.newClient Scenario.upperEnv)
        Scenario.background () Scenario.zeroRes []).calls.map
          (fun r => url.URL.String (Scenario.server 200 (str "ok")) r.URL) =
        [str "http://Example.com/api/public/ingestion"] ∧
      (api.Client.Ingestion (Scenario.server 200 (str "ok")) (api.newClient Scenario.upperEnv)
        Scenario.background () Scenario.zeroRes []).calls.map (fun r => r.URL.Scheme) =
        [str "http"] ∧
      (api.Client.Ingestion (Scenario.server 200 (str "ok")) (api.newClient Scenario.upperEnv)
        Scenario.background () Scenario.zeroRes []).calls.map (fun r => r.URL.Host) =
        [str "Example.com"] ∧
      ¬ (∀ r ∈ (api.Client.Ingestion (Scenario.server 200 (str "ok"))
          (api.newClient Scenario.upperEnv) Scenario.background () Scenario.zeroRes []).calls,
        url.URL.String (Scenario.server 200 (str "ok")) r.URL =
          (api.newClient Scenario.upperEnv).baseURL ++ str "/api/public/ingestion") := by
  decide

/-- C6 (as the code has it): a non-nil error `e` is returned by `Ingestion` exactly when one
of five calls failed with `e`: `json.Marshal` (serialization), `http.NewRequestWithContext`
(request construction), `httpClient.Do` (transport), `io.ReadAll` (I/O) or `json.Unmarshal`
(deserialization); the error is handed back as it is, none is suppressed, and the request is
sent at most once. -/
theorem Ingestion_error_sources {Req Fields : Type} (w : World Req Fields) (c : api.Client)
    (ctx : http.Context) (req : Req) (res : api.IngestionResponse Fields)
    (log : List http.Request) (e : GoError) :
    ((api.Client.Ingestion w c ctx req res log).err = some e ↔
      (w.jsonMarshal req = .error e ∨
        (∃ jsonData, w.jsonMarshal req = .ok jsonData ∧
          http.NewRequestWithContext w ctx (str "POST")
            (c.baseURL ++ str "/api/public/ingestion") jsonData = .error e) ∨
        (∃ r, (api.Client.Ingestion w c ctx req res log).calls = log ++ [r] ∧
          w.Do c.httpClient r = .error e) ∨
        (∃ r resp, (api.Client.Ingestion w c ctx req res log).calls = log ++ [r] ∧
          w.Do c.httpClient r = .ok resp ∧ resp.Body = .error e) ∨
        (∃ r resp body, (api.Client.Ingestion w c ctx req res log).calls = log ++ [r] ∧
          w.Do c.httpClient r = .ok resp ∧ resp.Body = .ok body ∧
          (w.jsonUnmarshal body res.fields).1 = some e))) ∧
    ((api.Client.Ingestion w c ctx req res log).calls = log ∨
      ∃ r, (api.Client.Ingestion w c ctx req res log).calls = log ++ [r]) := by
  rcases api.Ingestion_cases w c ctx req res log with
    ⟨e1, hm, h⟩ | ⟨d, e1, hm, hn, h⟩ | ⟨d, r0, e1, hm, hn, hd, h⟩ |
    ⟨d, r0, resp1, e1, hm, hn, hd, hb, h⟩ | ⟨d, r0, resp1, body1, hm, hn, hd, hb, h⟩
  · rw [h]
    refine ⟨⟨?_, ?_⟩, Or.inl rfl⟩
    · intro he
      have : e1 = e := by simpa using he
      subst this
      exact Or.inl hm
    · rintro (h1 | ⟨d, h1, _⟩ | ⟨r, h1, _⟩ | ⟨r, resp, h1, _⟩ | ⟨r, resp, body, h1, _⟩)
      · rw [hm] at h1; cases h1; rfl
      · rw [hm] at h1; cases h1
      · simp at h1
      · simp at h1
      · simp at h1
  · rw [h]
    refine ⟨⟨?_, ?_⟩, Or.inl rfl⟩
    · intro he
      have : e1 = e := by simpa using he
      subst this
      exact Or.inr (Or.inl ⟨d, hm, hn⟩)
    · rintro (h1 | ⟨d1, h1, h2⟩ | ⟨r, h1, _⟩ | ⟨r, resp, h1, _⟩ | ⟨r, resp, body, h1, _⟩)
      · rw [hm] at h1; cases h1
      · rw [hm] at h1; cases h1
        rw [hn] at h2; cases h2; rfl
      · simp at h1
      · simp at h1
      · simp at h1
  · rw [h]
    refine ⟨⟨?_, ?_⟩, Or.inr ⟨_, rfl⟩⟩
    · intro he
      have : e1 = e := by simpa using he
      subst this
      exact Or.inr (Or.inr (Or.inl ⟨_, rfl, hd⟩))
    · rintro (h1 | ⟨d1, h1, h2⟩ | ⟨r, h1, h2⟩ | ⟨r, resp, h1, h2, _⟩ |
        ⟨r, resp, body, h1, h2, _⟩)
      · rw [hm] at h1; cases h1
      · rw [hm] at h1; cases h1
        rw [hn] at h2; cases h2
      · have hr : api.sentRequest c r0 = r := by simpa using h1
        rw [← hr, hd] at h2; cases h2; rfl
      · have hr : api.sentRequest c r0 = r := by simpa using h1
        rw [← hr, hd] at h2; cases h2
      · have hr : api.sentRequest c r0 = r := by simpa using h1
        rw [← hr, hd] at h2; cases h2
  · rw [h]
    refine ⟨⟨?_, ?_⟩, Or.inr ⟨_, rfl⟩⟩
    · intro he
      have : e1 = e := by simpa using he
      subst this
      exact Or.inr (Or.inr (Or.inr (Or.inl ⟨_, resp1, rfl, hd, hb⟩)))
    · rintro (h1 | ⟨d1, h1, h2⟩ | ⟨r, h1, h2⟩ | ⟨r, resp, h1, h2, h3⟩ |
        ⟨r, resp, body, h1, h2, h3, _⟩)
      · rw [hm] at h1; cases h1
      · rw [hm] at h1; cases h1
        rw [hn] at h2; cases h2
      · have hr : api.sentRequest c r0 = r := by simpa using h1
        rw [← hr, hd] at h2; cases h2
      · have hr : api.sentRequest c r0 = r := by simpa using h1
        rw [← hr, hd] at h2; cases h2
        rw [hb] at h3; cases h3; rfl
      · have hr : api.sentRequest c r0 = r := by simpa using h1
        rw [← hr, hd] at h2; cases h2
        rw [hb] at h3; cases h3
  · rw [h]
    refine ⟨⟨?_, ?_⟩, Or.inr ⟨_, rfl⟩⟩
    · intro he
      exact Or.inr (Or.inr (Or.inr (Or.inr ⟨_, resp1, body1, rfl, hd, hb, he⟩)))
    · rintro (h1 | ⟨d1, h1, h2⟩ | ⟨r, h1, h2⟩ | ⟨r, resp, h1, h2, h3⟩ |
        ⟨r, resp, body, h1, h2, h3, h4⟩)
      · rw [hm] at h1; cases h1
      · rw [hm] at h1; cases h1
        rw [hn] at h2; cases h2
      · have hr : api.sentRequest c r0 = r := by simpa using h1
        rw [← hr, hd] at h2; cases h2
      · have hr : api.sentRequest c r0 = r := by simpa using h1
        rw [← hr, hd] at h2; cases h2
        rw [hb] at h3; cases h3
      · have hr : api.sentRequest c r0 = r := by simpa using h1
        rw [← hr, hd] at h2; cases h2
        rw [hb] at h3; cases h3
        exact h4

/-- C6 counterexample: with `LANGFUSE_HOST` ending in a line feed, `Ingestion` returns the
error of `http.NewRequestWithContext`; the payload was encoded and no request was sent, so the
error is none of a serialization, transport, I/O or deserialization error. -/
theorem Ingestion_fifth_error_counterexample :
    (api.Client.Ingestion (Scenario.server 200 (str "\x7b\"ok\":true\x7d"))
        (api.newClient Scenario.newlineEnv) Scenario.background () Scenario.zeroRes []).err =
        some ⟨"parse: net/url: invalid control character in URL"⟩ ∧
      (Scenario.server 200 (str "\x7b\"ok\":true\x7d")).jsonMarshal () = .ok (str "null") ∧
      (api.Client.Ingestion (Scenario.server 200 (str "\x7b\"ok\":true\x7d"))
        (api.newClient Scenario.newlineEnv) Scenario.background () Scenario.zeroRes []).calls =
        [] ∧
      ¬ ((Scenario.server 200 (str "\x7b\"ok\":true\x7d")).jsonMarshal () =
            .error ⟨"parse: net/url: invalid control character in URL"⟩ ∨
          (∃ r, (api.Client.Ingestion (Scenario.server 200 (str "\x7b\"ok\":true\x7d"))
              (api.newClient Scenario.newlineEnv) Scenario.background ()
              Scenario.zeroRes []).calls = [] ++ [r] ∧
            (Scenario.server 200 (str "\x7b\"ok\":true\x7d")).Do
              (api.newClient Scenario.newlineEnv).httpClient r =
              .error ⟨"parse: net/url: invalid control character in URL"⟩) ∨
          (∃ r resp, (api.Client.Ingestion (Scenario.server 200 (str "\x7b\"ok\":true\x7d"))
              (api.newClient Scenario.newlineEnv) Scenario.background ()
              Scenario.zeroRes []).calls = [] ++ [r] ∧
            (Scenario.server 200 (str "\x7b\"ok\":true\x7d")).Do
              (api.newClient Scenario.newlineEnv).httpClient r = .ok resp ∧
            resp.Body = .error ⟨"parse: net/url: invalid control character in URL"⟩) ∨
          (∃ r resp body, (api.Client.Ingestion (Scenario.server 200 (str "\x7b\"ok\":true\x7d"))
              (api.newClient Scenario.newlineEnv) Scenario.background ()
              Scenario.zeroRes []).calls = [] ++ [r] ∧
            (Scenario.server 200 (str "\x7b\"ok\":true\x7d")).Do
              (api.newClient Scenario.newlineEnv).httpClient r = .ok resp ∧
            resp.Body = .ok body ∧
            ((Scenario.server 200 (str "\x7b\"ok\":true\x7d")).jsonUnmarshal body
              Scenario.zeroRes.fields).1 =
              some ⟨"parse: net/url: invalid control character in URL"⟩)) := by
  have hcalls : (api.Client.Ingestion (Scenario.server 200 (str "\x7b\"ok\":true\x7d"))
      (api.newClient Scenario.newlineEnv) Scenario.background () Scenario.zeroRes []).calls =
      [] := by decide
  refine ⟨by decide, rfl, hcalls, ?_⟩
  rw [hcalls]
  rintro (h | ⟨r, h, _⟩ | ⟨r, resp, h, _⟩ | ⟨r, resp, body, h, _⟩)
  · cases h
  · simp at h
  · simp at h
  · simp at h

/-- C7 (as the code has it): one invocation of `Ingestion` calls `httpClient.Do` at most once,
never twice, so there is no retry; it calls it once exactly when the payload encodes to JSON
and the HTTP request is constructed, and not at all when `json.Marshal` or
`http.NewRequestWithContext` fails. -/
theorem Ingestion_call_count {Req Fields : Type} (w : World Req Fields) (c : api.Client)
    (ctx : http.Context) (req : Req) (res : api.IngestionResponse Fields)
    (log : List http.Request) :
    ((api.Client.Ingestion w c ctx req res log).calls = log ∨
      ∃ r, (api.Client.Ingestion w c ctx req res log).calls = log ++ [r]) ∧
    (api.Client.Ingestion w c ctx req res log).calls.length ≤ log.length + 1 ∧
    ((∃ r, (api.Client.Ingestion w c ctx req res log).calls = log ++ [r]) ↔
      ∃ jsonData r0, w.jsonMarshal req = .ok jsonData ∧
        http.NewRequestWithContext w ctx (str "POST")
          (c.baseURL ++ str "/api/public/ingestion") jsonData = .ok r0) ∧
    ((api.Client.Ingestion w c ctx req res log).calls = log ↔
      ((∃ e, w.jsonMarshal req = .error e) ∨
        ∃ jsonData e, w.jsonMarshal req = .ok jsonData ∧
          http.NewRequestWithContext w ctx (str "POST")
            (c.baseURL ++ str "/api/public/ingestion") jsonData = .error e)) := by
  have hsplit : ((∃ e, w.jsonMarshal req = .error e) ∨
      ∃ jsonData e, w.jsonMarshal req = .ok jsonData ∧
        http.NewRequestWithContext w ctx (str "POST")
          (c.baseURL ++ str "/api/public/ingestion") jsonData = .error e) ∨
      ∃ jsonData r0, w.jsonMarshal req = .ok jsonData ∧
        http.NewRequestWithContext w ctx (str "POST")
          (c.baseURL ++ str "/api/public/ingestion") jsonData = .ok r0 := by
    cases hm : w.jsonMarshal req with
    | error e => exact Or.inl (Or.inl ⟨e, rfl⟩)
    | ok d =>
      cases hn : http.NewRequestWithContext w ctx (str "POST")
          (c.baseURL ++ str "/api/public/ingestion") d with
      | error e => exact Or.inl (Or.inr ⟨d, e, rfl, hn⟩)
      | ok r0 => exact Or.inr ⟨d, r0, rfl, hn⟩
  rcases hsplit with hno | ⟨d, r0, hm, hn⟩
  · have hc := api.Ingestion_calls_of_no_request w c ctx req res log hno
    refine ⟨Or.inl hc, by rw [hc]; omega, ⟨?_, ?_⟩, ⟨fun _ => hno, fun _ => hc⟩⟩
    · rintro ⟨r, hr⟩
      rw [hc] at hr
      simp at hr
    · rintro ⟨d, r0, hm, hn⟩
      rcases hno with ⟨e, hm1⟩ | ⟨d1, e, hm1, hn1⟩
      · rw [hm] at hm1; cases hm1
      · rw [hm] at hm1; cases hm1
        rw [hn] at hn1; cases hn1
  · have hc := api.Ingestion_calls_of_request w c ctx req res log d r0 hm hn
    refine ⟨Or.inr ⟨_, hc⟩, by rw [hc]; simp, ⟨fun _ => ⟨d, r0, hm, hn⟩, fun _ => ⟨_, hc⟩⟩,
      ⟨?_, ?_⟩⟩
    · intro h
      rw [hc] at h
      simp at h
    · rintro (⟨e, hm1⟩ | ⟨d1, e, hm1, hn1⟩)
      · rw [hm] at hm1; cases hm1
      · rw [hm] at hm1; cases hm1
        rw [hn] at hn1; cases hn1

/-- C7 counterexample: with `LANGFUSE_HOST` ending in a line feed the request cannot be
constructed and `Ingestion` returns without any call of `httpClient.Do`. -/
theorem Ingestion_zero_calls_counterexample :
    (api.Client.Ingestion (Scenario.server 200 (str "ok"))
        (api.newClient Scenario.newlineEnv) Scenario.background () Scenario.zeroRes []).calls =
        [] ∧
      (api.Client.Ingestion (Scenario.server 200 (str "ok"))
        (api.newClient Scenario.newlineEnv) Scenario.background () Scenario.zeroRes
        []).calls.length ≠ 1 := by
  decide

/-- C9: `Ingestion` does not look at the status code. Against a server answering `(s1, body)`
and against one answering `(s2, body)`, from the same `res`, it returns the same error and
leaves the same `RawBody`, the same decoded fields and the same call log; when the request is
sent, the error returned is what the decoder returns on `body`, `Code` is the status code, and
a body that decodes gives nil whatever the status. -/
theorem Ingestion_ignores_status {Req Fields : Type} (w : World Req Fields) (c : api.Client)
    (ctx : http.Context) (req : Req) (res : api.IngestionResponse Fields)
    (log : List http.Request) (body : GoString) (s1 s2 : Int) :
    ((api.Client.Ingestion (w.respond s1 body) c ctx req res log).err =
        (api.Client.Ingestion (w.respond s2 body) c ctx req res log).err ∧
      (api.Client.Ingestion (w.respond s1 body) c ctx req res log).res.RawBody =
        (api.Client.Ingestion (w.respond s2 body) c ctx req res log).res.RawBody ∧
      (api.Client.Ingestion (w.respond s1 body) c ctx req res log).res.fields =
        (api.Client.Ingestion (w.respond s2 body) c ctx req res log).res.fields ∧
      (api.Client.Ingestion (w.respond s1 body) c ctx req res log).calls =
        (api.Client.Ingestion (w.respond s2 body) c ctx req res log).calls) ∧
    (∀ r, (api.Client.Ingestion (w.respond s1 body) c ctx req res log).calls = log ++ [r] →
      (api.Client.Ingestion (w.respond s1 body) c ctx req res log).err =
          (w.jsonUnmarshal body res.fields).1 ∧
        (api.Client.Ingestion (w.respond s1 body) c ctx req res log).res.fields =
          (w.jsonUnmarshal body res.fields).2 ∧
        (api.Client.Ingestion (w.respond s1 body) c ctx req res log).res.Code = s1 ∧
        ((w.jsonUnmarshal body res.fields).1 = none →
          (api.Client.Ingestion (w.respond s1 body) c ctx req res log).err = none)) := by
  have hrun : ∀ s : Int, api.Client.Ingestion (w.respond s body) c ctx req res log =
      match w.jsonMarshal req with
      | .error err => { err := some err, res := res, calls := log }
      | .ok jsonData =>
        match http.NewRequestWithContext w ctx (str "POST")
            (c.baseURL ++ str "/api/public/ingestion") jsonData with
        | .error err => { err := some err, res := res, calls := log }
        | .ok r0 =>
          { err := (w.jsonUnmarshal body res.fields).1
            res := { Code := s, RawBody := some body,
                     fields := (w.jsonUnmarshal body res.fields).2 }
            calls := log ++ [api.sentRequest c r0] } := by
    intro s
    rw [api.Ingestion_eq]
    rfl
  rw [hrun s1, hrun s2]
  cases hm : w.jsonMarshal req with
  | error e =>
    refine ⟨⟨rfl, rfl, rfl, rfl⟩, ?_⟩
    intro r hr
    simp at hr
  | ok d =>
    dsimp only
    cases hn : http.NewRequestWithContext w ctx (str "POST")
        (c.baseURL ++ str "/api/public/ingestion") d with
    | error e =>
      refine ⟨⟨rfl, rfl, rfl, rfl⟩, ?_⟩
      intro r hr
      simp at hr
    | ok r0 =>
      refine ⟨⟨rfl, rfl, rfl, rfl⟩, ?_⟩
      intro r _
      exact ⟨rfl, rfl, rfl, fun h => h⟩

/-- C9 witness: a server answering 500 with a body that decodes; nil is returned. -/
theorem Ingestion_ignores_status_witness :
    (api.Client.Ingestion
        ((Scenario.server 200 (str "ok")).respond 500 (str "\x7b\"ok\":true\x7d"))
        (api.newClient Scenario.emptyEnv) Scenario.background () Scenario.zeroRes []).err =
        ((Scenario.server 200 (str "ok")).jsonUnmarshal (str "\x7b\"ok\":true\x7d")
          Scenario.zeroRes.fields).1 ∧
      (api.Client.Ingestion
        ((Scenario.server 200 (str "ok")).respond 500 (str "\x7b\"ok\":true\x7d"))
        (api.newClient Scenario.emptyEnv) Scenario.background () Scenario.zeroRes
        []).res.fields =
        ((Scenario.server 200 (str "ok")).jsonUnmarshal (str "\x7b\"ok\":true\x7d")
          Scenario.zeroRes.fields).2 ∧
      (api.Client.Ingestion
        ((Scenario.server 200 (str "ok")).respond 500 (str "\x7b\"ok\":true\x7d"))
        (api.newClient Scenario.emptyEnv) Scenario.background () Scenario.zeroRes
        []).res.Code = 500 ∧
      (((Scenario.server 200 (str "ok")).jsonUnmarshal (str "\x7b\"ok\":true\x7d")
          Scenario.zeroRes.fields).1 = none →
        (api.Client.Ingestion
          ((Scenario.server 200 (str "ok")).respond 500 (str "\x7b\"ok\":true\x7d"))
          (api.newClient Scenario.emptyEnv) Scenario.background () Scenario.zeroRes []).err =
          none) :=
  (Ingestion_ignores_status (Scenario.server 200 (str "ok")) (api.newClient Scenario.emptyEnv)
    Scenario.background () Scenario.zeroRes [] (str "\x7b\"ok\":true\x7d") 500 200).2
    (api.sentRequest (api.newClient Scenario.emptyEnv) Scenario.defaultRequest)
    (by decide)

/-- C10: when JSON encoding of the request, construction of the HTTP request, the round trip
or the reading of the response body fails with `e`, `Ingestion` returns `e` and leaves every
field of `res` as the caller passed it; `res` is written only after a response body has been
read in full. -/
theorem Ingestion_early_failure_frame {Req Fields : Type} (w : World Req Fields)
    (c : api.Client) (ctx : http.Context) (req : Req) (res : api.IngestionResponse Fields)
    (log : List http.Request) :
    (∀ e, (w.jsonMarshal req = .error e ∨
        (∃ jsonData, w.jsonMarshal req = .ok jsonData ∧
          http.NewRequestWithContext w ctx (str "POST")
            (c.baseURL ++ str "/api/public/ingestion") jsonData = .error e) ∨
        (∃ r, (api.Client.Ingestion w c ctx req res log).calls = log ++ [r] ∧
          w.Do c.httpClient r = .error e) ∨
        (∃ r resp, (api.Client.Ingestion w c ctx req res log).calls = log ++ [r] ∧
          w.Do c.httpClient r = .ok resp ∧ resp.Body = .error e)) →
      (api.Client.Ingestion w c ctx req res log).err = some e ∧
        (api.Client.Ingestion w c ctx req res log).res = res) ∧
    ((api.Client.Ingestion w c ctx req res log).res ≠ res →
      ∃ r resp body, (api.Client.Ingestion w c ctx req res log).calls = log ++ [r] ∧
        w.Do c.httpClient r = .ok resp ∧ resp.Body = .ok body) := by
  rcases api.Ingestion_cases w c ctx req res log with
    ⟨e1, hm, h⟩ | ⟨d, e1, hm, hn, h⟩ | ⟨d, r0, e1, hm, hn, hd, h⟩ |
    ⟨d, r0, resp1, e1, hm, hn, hd, hb, h⟩ | ⟨d, r0, resp1, body1, hm, hn, hd, hb, h⟩
  · rw [h]
    refine ⟨?_, fun hne => absurd rfl hne⟩
    rintro e (h1 | ⟨d, h1, _⟩ | ⟨r, h1, _⟩ | ⟨r, resp, h1, _⟩)
    · rw [hm] at h1; cases h1; exact ⟨rfl, rfl⟩
    · rw [hm] at h1; cases h1
    · simp at h1
    · simp at h1
  · rw [h]
    refine ⟨?_, fun hne => absurd rfl hne⟩
    rintro e (h1 | ⟨d1, h1, h2⟩ | ⟨r, h1, _⟩ | ⟨r, resp, h1, _⟩)
    · rw [hm] at h1; cases h1
    · rw [hm] at h1; cases h1
      rw [hn] at h2; cases h2; exact ⟨rfl, rfl⟩
    · simp at h1
    · simp at h1
  · rw [h]
    refine ⟨?_, fun hne => absurd rfl hne⟩
    rintro e (h1 | ⟨d1, h1, h2⟩ | ⟨r, h1, h2⟩ | ⟨r, resp, h1, h2, _⟩)
    · rw [hm] at h1; cases h1
    · rw [hm] at h1; cases h1
      rw [hn] at h2; cases h2
    · have hr : api.sentRequest c r0 = r := by simpa using h1
      rw [← hr, hd] at h2; cases h2; exact ⟨rfl, rfl⟩
    · have hr : api.sentRequest c r0 = r := by simpa using h1
      rw [← hr, hd] at h2; cases h2
  · rw [h]
    refine ⟨?_, fun hne => absurd rfl hne⟩
    rintro e (h1 | ⟨d1, h1, h2⟩ | ⟨r, h1, h2⟩ | ⟨r, resp, h1, h2, h3⟩)
    · rw [hm] at h1; cases h1
    · rw [hm] at h1; cases h1
      rw [hn] at h2; cases h2
    · have hr : api.sentRequest c r0 = r := by simpa using h1
      rw [← hr, hd] at h2; cases h2
    · have hr : api.sentRequest c r0 = r := by simpa using h1
      rw [← hr, hd] at h2; cases h2
      rw [hb] at h3; cases h3; exact ⟨rfl, rfl⟩
  · rw [h]
    refine ⟨?_, fun _ => ⟨_, resp1, body1, rfl, hd, hb⟩⟩
    rintro e (h1 | ⟨d1, h1, h2⟩ | ⟨r, h1, h2⟩ | ⟨r, resp, h1, h2, h3⟩)
    · rw [hm] at h1; cases h1
    · rw [hm] at h1; cases h1
      rw [hn] at h2; cases h2
    · have hr : api.sentRequest c r0 = r := by simpa using h1
      rw [← hr, hd] at h2; cases h2
    · have hr : api.sentRequest c r0 = r := by simpa using h1
      rw [← hr, hd] at h2; cases h2
      rw [hb] at h3; cases h3

/-- C10 witness: no server listens; the transport error is returned and `res` keeps its zero
values. -/
theorem Ingestion_early_failure_frame_witness :
    (api.Client.Ingestion Scenario.refused (api.newClient Scenario.emptyEnv)
        Scenario.background () Scenario.zeroRes []).err =
        some ⟨"dial tcp: connect: connection refused"⟩ ∧
      (api.Client.Ingestion Scenario.refused (api.newClient Scenario.emptyEnv)
        Scenario.background () Scenario.zeroRes []).res = Scenario.zeroRes :=
  (Ingestion_early_failure_frame Scenario.refused (api.newClient Scenario.emptyEnv)
    Scenario.background () Scenario.zeroRes []).1 ⟨"dial tcp: connect: connection refused"⟩
    (Or.inr (Or.inr (Or.inl
      ⟨api.sentRequest (api.newClient Scenario.emptyEnv) Scenario.defaultRequest,
        by decide, rfl⟩)))
